import Mathlib

/-!
Verification of the essay-processing pipeline of a browser-based essay-grading
assistant.  The definitions below are a shallow embedding of the relevant
program units:

* the OCR client (`uploadDocument` / `fetchDocumentStatus` / `collectTranscript`
  / `transcribeHandwriting` in `src/services/markdownImport.ts`, second unit of
  that bundle, imported elsewhere as `./handwritingOcr`),
* the model router and per-essay agent (`runOpenAIStyleModel` /
  `runGeminiModel` / `routeModel` / `processEssayAgent` in
  `src/services/aiAgent.ts`),
* the grading-step / retry orchestration (`runGradingStep` / `handleRetry` in
  `src/App.tsx`),
* the persistence layer (`resetIfInterrupted` / `markMissingSource` /
  `reviveEssay` / `loadPersistedEssays` in `src/services/persistence.ts`).

External effects (HTTP responses, abort signals, the clock, `JSON.parse`) are
supplied as explicit environment arguments.  Elapsed wall-clock time is modelled
as the sum of the backoff waits performed so far (network latency is taken as
zero).  JavaScript string truthiness (`undefined` and `""` are falsy) is
modelled by the `jsOr` / `jsStr` / `jsOrO` helpers.
-/

/-- JavaScript `a || b` on strings: `""` is falsy. -/
def jsOr (a b : String) : String := if a = "" then b else a

/-- Read an optional JavaScript string field, `undefined` becoming `""`. -/
def jsStr (o : Option String) : String := o.getD ""

/-- JavaScript `o || d` for an optional string field with a default. -/
def jsOrO (o : Option String) (d : String) : String := jsOr (jsStr o) d

/-- The whitespace characters relevant to the strings this program trims. -/
def isWsp (c : Char) : Bool := c == ' ' || c == '\n' || c == '\t' || c == '\r'

/-- Drop leading whitespace from a character list. -/
def dropWsp : List Char → List Char
  | [] => []
  | c :: cs => if isWsp c then dropWsp cs else c :: cs

/-- JavaScript `s.trim()` (modelled character-listwise so that concrete runs
evaluate inside the kernel). -/
def jsTrim (s : String) : String :=
  String.mk ((dropWsp (dropWsp s.data).reverse).reverse)

/-- ASCII lowercasing of one character. -/
def lowerChar (c : Char) : Char :=
  if 65 ≤ c.toNat && c.toNat ≤ 90 then Char.ofNat (c.toNat + 32) else c

/-- JavaScript `s.toLowerCase()` (ASCII range, which covers every message this
program inspects). -/
def jsToLower (s : String) : String := String.mk (s.data.map lowerChar)

/-- Whether the second list is a leading segment of the first list's start. -/
def leadsWith : List Char → List Char → Bool
  | [], _ => true
  | _ :: _, [] => false
  | p :: ps, c :: cs => p == c && leadsWith ps cs

/-- Whether `pat` occurs contiguously inside the list. -/
def hasSubList (pat : List Char) : List Char → Bool
  | [] => leadsWith pat []
  | c :: cs => leadsWith pat (c :: cs) || hasSubList pat cs

/-! ## OCR client (`transcribeHandwriting` and friends) -/

/-- One page entry of the vendor's document-status response,
`results:[{page_number, transcript}]`. -/
structure PageResult where
  page_number : Option Nat
  transcript : Option String
deriving Repr, DecidableEq

/-- A document-status poll outcome as assembled by `fetchDocumentStatus`:
the decoded body fields plus the HTTP status and the parsed `Retry-After`
header (already converted to milliseconds). -/
structure PollResponse where
  status : Option String
  results : Option (List PageResult)
  message : Option String
  retryAfterMs : Option Nat
  httpStatus : Nat
deriving Repr, DecidableEq

/-- `collectTranscript`: map pages to `page?.transcript || ""`, drop the empty
ones, join with blank lines and trim.  The list order is used as-is; the
`page_number` field is not consulted. -/
def collectTranscript (results : Option (List PageResult)) : String :=
  match results with
  | none => ""
  | some rs =>
    jsTrim (String.intercalate "\n\n"
      ((rs.map (fun p => jsStr p.transcript)).filter (fun t => t != "")))

/-- The wait picked by one backoff iteration of `transcribeHandwriting`:
`rateLimited ? retryAfterMs ?? min(dynamicDelay*2, 30000)
 : missing ? max(dynamicDelay, pollIntervalMs*2) : dynamicDelay`. -/
def computeWait (dynamicDelay pollIntervalMs : Nat) (r : PollResponse) : Nat :=
  if r.httpStatus = 429 then r.retryAfterMs.getD (min (dynamicDelay * 2) 30000)
  else if r.httpStatus = 404 then max dynamicDelay (pollIntervalMs * 2)
  else dynamicDelay

/-- The update of the carried-forward delay after one backoff iteration:
`dynamicDelay = min(waitMs + pollIntervalMs, rateLimited ? 45000 : 20000)`. -/
def nextDynamicDelay (pollIntervalMs waitMs : Nat) (r : PollResponse) : Nat :=
  min (waitMs + pollIntervalMs) (if r.httpStatus = 429 then 45000 else 20000)

/-- Trace entry for one backoff iteration of the polling loop: the adaptive
delay on entry, the wait actually performed, and the response fields the
backoff decision looked at. -/
structure BackoffStep where
  delayBefore : Nat
  wait : Nat
  httpStatus : Nat
  retryAfterMs : Option Nat
deriving Repr, DecidableEq

/-- How the polling `while` loop ended. -/
inductive LoopExit where
  | success (transcript : String)
  | failure (message : String)
  | exhausted
deriving Repr, DecidableEq

/-- Result of the polling loop: exit kind, number of status polls issued, and
the backoff trace. -/
structure LoopOut where
  exit : LoopExit
  polls : Nat
  steps : List BackoffStep
deriving Repr, DecidableEq

/-- Whether the abort signal reads aborted at logical point `p` (the signal is
monotone: once aborted, aborted at every later point). -/
def abortedAt (abortAt : Option Nat) (p : Nat) : Bool :=
  match abortAt with
  | none => false
  | some t => decide (t ≤ p)

/-- The polling `while` loop of `transcribeHandwriting`.  `fuel` is
`maxAttempts - attempt`, `idx` the number of polls already made, `elapsed` the
wall-clock spent so far (sum of waits), `dynamicDelay` the carried delay.
The loop condition `attempt < maxAttempts && Date.now()-startedAt < maxWaitMs`
is checked on entry of each iteration; cancellation is observed at the poll
(`throwIfCancelled` inside `fetchDocumentStatus`). -/
def pollLoop (responses : Nat → PollResponse) (abortAt : Option Nat)
    (pollIntervalMs maxWaitMs : Nat) :
    Nat → Nat → Nat → Nat → LoopOut
  | 0, _, _, _ => { exit := .exhausted, polls := 0, steps := [] }
  | fuel + 1, idx, elapsed, dynamicDelay =>
    if maxWaitMs ≤ elapsed then { exit := .exhausted, polls := 0, steps := [] }
    else if abortedAt abortAt idx then
      { exit := .failure "Processing cancelled", polls := 0, steps := [] }
    else
      let r := responses idx
      if r.status = some "processed" then
        let t := collectTranscript r.results
        if t = "" then
          { exit := .failure "OCR finished but returned empty transcript",
            polls := 1, steps := [] }
        else { exit := .success t, polls := 1, steps := [] }
      else if r.status = some "failed" then
        { exit := .failure (jsOr (jsStr r.message) "Handwriting OCR processing failed"),
          polls := 1, steps := [] }
      else
        let waitMs := computeWait dynamicDelay pollIntervalMs r
        let rest := pollLoop responses abortAt pollIntervalMs maxWaitMs fuel (idx + 1)
          (elapsed + waitMs) (nextDynamicDelay pollIntervalMs waitMs r)
        { exit := rest.exit, polls := rest.polls + 1,
          steps := { delayBefore := dynamicDelay, wait := waitMs,
                     httpStatus := r.httpStatus, retryAfterMs := r.retryAfterMs } :: rest.steps }

/-- Options of `transcribeHandwriting` with the source defaults. -/
structure OcrOptions where
  pollIntervalMs : Nat := 2000
  maxAttempts : Nat := 120
  maxWaitMs : Nat := 240000
deriving Repr, DecidableEq

instance {ε α : Type} [DecidableEq ε] [DecidableEq α] : DecidableEq (Except ε α) := fun x y =>
  match x, y with
  | .ok a, .ok b =>
    if h : a = b then .isTrue (by rw [h]) else .isFalse (by intro he; cases he; exact h rfl)
  | .error a, .error b =>
    if h : a = b then .isTrue (by rw [h]) else .isFalse (by intro he; cases he; exact h rfl)
  | .ok _, .error _ => .isFalse (by intro h; cases h)
  | .error _, .ok _ => .isFalse (by intro h; cases h)

/-- Full trace of one `transcribeHandwriting` call.  `timedOut` records that
the polling loop ended by exhausting one of its two bounds (so the final
post-loop status check was reached). -/
structure TranscribeRun where
  result : Except String String
  polls : Nat
  steps : List BackoffStep
  timedOut : Bool
deriving Repr, DecidableEq

/-- The timeout error message of `transcribeHandwriting`. -/
def timeoutMessage (documentId : String) : String :=
  "OCR request timed out before completion (document id: " ++ documentId ++ "). 请稍后重试。"

/-- `transcribeHandwriting`.  The environment supplies the API key (a module
constant in the source), the outcome of the upload call, and the status
responses, indexed by poll number.  The abort signal is `abortAt`: aborted at
every logical poll point `≥ abortAt`.  Transcript persistence side effects are
best-effort and never surface to the caller, so they are not modelled. -/
def transcribeHandwriting (apiKey : Option String)
    (uploadOutcome : Except String String) (responses : Nat → PollResponse)
    (abortAt : Option Nat) (opts : OcrOptions) : TranscribeRun :=
  if abortedAt abortAt 0 then
    { result := .error "Processing cancelled", polls := 0, steps := [], timedOut := false }
  else if jsStr apiKey = "" then
    { result := .error "Handwriting OCR API key is missing", polls := 0, steps := [],
      timedOut := false }
  else
    match uploadOutcome with
    | .error e => { result := .error e, polls := 0, steps := [], timedOut := false }
    | .ok documentId =>
      let out := pollLoop responses abortAt opts.pollIntervalMs opts.maxWaitMs
        opts.maxAttempts 0 0 opts.pollIntervalMs
      match out.exit with
      | .success t =>
        { result := .ok t, polls := out.polls, steps := out.steps, timedOut := false }
      | .failure m =>
        { result := .error m, polls := out.polls, steps := out.steps, timedOut := false }
      | .exhausted =>
        if abortedAt abortAt out.polls then
          { result := .error "Processing cancelled", polls := out.polls,
            steps := out.steps, timedOut := true }
        else
          let r := responses out.polls
          let t := collectTranscript r.results
          if r.status = some "processed" ∧ t ≠ "" then
            { result := .ok t, polls := out.polls + 1, steps := out.steps, timedOut := true }
          else
            { result := .error (timeoutMessage documentId), polls := out.polls + 1,
              steps := out.steps, timedOut := true }

/-! ## Model router (`aiAgent.ts`) -/

/-- A thrown JavaScript error as the orchestration sees it: its message and
whether its `name` is `"AbortError"` (a fetch rejected by the abort signal). -/
structure AgentErr where
  message : String
  isAbortError : Bool
deriving Repr, DecidableEq

/-- Whether `token` occurs in `s` (JavaScript `s.includes(token)`). -/
def containsToken (s token : String) : Bool := hasSubList token.data s.data

/-- The cancellation test used by the catch blocks:
`error?.message?.toLowerCase().includes("cancelled") || error?.name === "AbortError"`. -/
def isCancelledError (e : AgentErr) : Bool :=
  containsToken (jsToLower e.message) "cancelled" || e.isAbortError

/-- One entry of an OpenAI-style multi-part message content. -/
structure ChatPart where
  type : String
  text : Option String
deriving Repr, DecidableEq

/-- The `choices[0].message.content` of an OpenAI-compatible reply: either a
plain string or an array of typed parts. -/
inductive ChatContent where
  | str (s : String)
  | parts (l : List ChatPart)
deriving Repr, DecidableEq

/-- An OpenAI-compatible HTTP reply as consumed by `runOpenAIStyleModel`:
`ok` of the response, `data?.error?.message || data?.message`, and
`data?.choices?.[0]?.message?.content`. -/
structure ChatReply where
  ok : Bool
  errorDetail : Option String
  content : Option ChatContent
deriving Repr, DecidableEq

/-- One entry of a Gemini candidate's `content.parts`. -/
structure GeminiPart where
  text : Option String
deriving Repr, DecidableEq

/-- A Gemini-style HTTP reply as consumed by `runGeminiModel`:
`ok`, `data?.error?.message || data?.message`, and
`data?.candidates?.[0]?.content?.parts` (or `none` when that path is absent
or not an array). -/
structure GeminiReply where
  ok : Bool
  errorDetail : Option String
  candidateParts : Option (List GeminiPart)
deriving Repr, DecidableEq

/-- Outcome of one adapter dispatch: the raw text result (or error) plus the
number of HTTP requests issued. -/
structure RouteOut where
  result : Except AgentErr String
  httpCalls : Nat
deriving Repr, DecidableEq

/-- `runOpenAIStyleModel`: missing key fails before any network call, then the
abort signal is checked, then the single `fetch` is issued and its reply
decoded (`content` falsy throws "No response", a string content is returned,
an array content yields its first `type === "text"` part's text). -/
def runOpenAIStyleModel (apiKey : Option String) (providerName : String)
    (abortedSignal : Bool) (reply : ChatReply) : RouteOut :=
  if jsStr apiKey = "" then
    { result := .error ⟨providerName ++ " API key is missing", false⟩, httpCalls := 0 }
  else if abortedSignal then
    { result := .error ⟨"Processing cancelled", false⟩, httpCalls := 0 }
  else if !reply.ok then
    { result := .error ⟨jsOr (jsStr reply.errorDetail) (providerName ++ " request failed"), false⟩,
      httpCalls := 1 }
  else
    match reply.content with
    | none =>
      { result := .error ⟨"No response from " ++ providerName, false⟩, httpCalls := 1 }
    | some (.str s) =>
      if s = "" then
        { result := .error ⟨"No response from " ++ providerName, false⟩, httpCalls := 1 }
      else { result := .ok s, httpCalls := 1 }
    | some (.parts l) =>
      match ((l.find? (fun p => p.type == "text")).bind (fun p => p.text)) with
      | some t =>
        if t = "" then
          { result := .error ⟨providerName ++ " returned unsupported content format", false⟩,
            httpCalls := 1 }
        else { result := .ok t, httpCalls := 1 }
      | none =>
        { result := .error ⟨providerName ++ " returned unsupported content format", false⟩,
          httpCalls := 1 }

/-- `runGeminiModel`: same missing-key and abort gating, then one `fetch`; the
reply yields the text of the first candidate part with truthy `text`. -/
def runGeminiModel (apiKey : Option String) (providerName : String)
    (abortedSignal : Bool) (reply : GeminiReply) : RouteOut :=
  if jsStr apiKey = "" then
    { result := .error ⟨providerName ++ " API key is missing", false⟩, httpCalls := 0 }
  else if abortedSignal then
    { result := .error ⟨"Processing cancelled", false⟩, httpCalls := 0 }
  else if !reply.ok then
    { result := .error ⟨jsOr (jsStr reply.errorDetail) (providerName ++ " request failed"), false⟩,
      httpCalls := 1 }
  else
    match reply.candidateParts with
    | some l =>
      match (l.find? (fun p => jsStr p.text != "")).bind (fun p => p.text) with
      | some t => { result := .ok t, httpCalls := 1 }
      | none =>
        { result := .error ⟨providerName ++ " returned unsupported content format", false⟩,
          httpCalls := 1 }
    | none =>
      { result := .error ⟨providerName ++ " returned unsupported content format", false⟩,
        httpCalls := 1 }

/-- The per-provider API keys from the configuration accessor
(`process.env`, absent or empty meaning unconfigured). -/
structure ModelConfig where
  openaiKey : Option String
  openrouterKey : Option String
  geminiKey : Option String
  deepseekKey : Option String
deriving Repr, DecidableEq

/-- What the provider endpoints would answer, per transport shape. -/
structure ProviderReplies where
  chat : ChatReply
  gemini : GeminiReply
deriving Repr, DecidableEq

/-- `routeModel`: checks the abort signal, then dispatches on the provider
identifier (unknown providers fall through to the OpenAI adapter). -/
def routeModel (cfg : ModelConfig) (provider : String) (abortedSignal : Bool)
    (replies : ProviderReplies) : RouteOut :=
  if abortedSignal then { result := .error ⟨"Processing cancelled", false⟩, httpCalls := 0 }
  else if provider == "openai" then
    runOpenAIStyleModel cfg.openaiKey "OpenAI" abortedSignal replies.chat
  else if provider == "gemini" then
    runGeminiModel cfg.geminiKey "Gemini" abortedSignal replies.gemini
  else if provider == "deepseek" then
    runOpenAIStyleModel cfg.deepseekKey "DeepSeek" abortedSignal replies.chat
  else if provider == "openrouter" then
    runOpenAIStyleModel cfg.openrouterKey "OpenRouter" abortedSignal replies.chat
  else runOpenAIStyleModel cfg.openaiKey "OpenAI" abortedSignal replies.chat

/-! ## Per-essay agent (`processEssayAgent`) and App orchestration -/

/-- The fields of an `EssayData` record that the processing pipeline reads or
writes.  The binary `file` handle is modelled by `hasFile`; purely decorative
metadata carried through unchanged (`imagePreview`, `topic`, `batchId`,
`sourceFileName`, `sourcePath`, `addedAt`) is omitted.  Status enums are kept
as their string values (`"PENDING"`, `"PROCESSING"`, `"COMPLETED"`, `"ERROR"`,
`"CANCELLED"`; sub-statuses `"idle" | "processing" | "done" | "error" |
"skipped"`). -/
structure Essay where
  id : String
  submissionType : String
  hasFile : Bool
  rawText : Option String
  ocrText : String
  status : String
  progressStep : Option String
  progressMessage : Option String
  studentName : Option String
  date : Option String
  ocrStatus : Option String
  gradingStatus : Option String
  gradingResult : Option String
  errorMessage : Option String
deriving Repr, DecidableEq

/-- The object produced by `JSON.parse` on the model's reply, as read by
`processEssayAgent` (the grading payload itself is carried opaquely). -/
structure ParsedResult where
  studentName : Option String
  date : Option String
  ocrText : Option String
  gradingResult : Option String
deriving Repr, DecidableEq

/-- A partial essay update passed to the `onProgress` callback. -/
structure ProgressUpdate where
  progressStep : Option String := none
  progressMessage : Option String := none
  ocrText : Option String := none
deriving Repr, DecidableEq

/-- Environment of one `processEssayAgent` run.  The abort signal is observed
at four ordered points: 0 = the entry check, 1 = the OCR call, 2 = the check
before grading, 3 = the grading network call (`routeModel` checks the signal
then wires it into `fetch`).  `ocrOutcome` / `fileRead` / `routeOutcome` are
the outcomes of the respective awaited calls when not aborted, `parsed` is the
`JSON.parse` outcome (`none` = throws), `today` is
`new Date().toLocaleDateString()`. -/
structure AgentEnv where
  abortAt : Option Nat
  ocrOutcome : Except AgentErr String
  fileRead : Except AgentErr Unit
  routeOutcome : Except AgentErr String
  parsed : Option ParsedResult
  today : String

/-- Result of a `processEssayAgent` run: the resolved record, how many times
`transcribeHandwriting` was invoked, and the `onProgress` trace. -/
structure AgentResult where
  record : Essay
  ocrCalls : Nat
  progress : List ProgressUpdate
deriving Repr, DecidableEq

/-- The catch block of `processEssayAgent`: classifies the error as
cancellation, and resolves (never rethrows) with the essay moved to the
cancelled or error state, keeping `textForModel || essay.ocrText ||
essay.rawText || ""` as the record's text. -/
def agentCatch (essay : Essay) (textForModel : String) (e : AgentErr)
    (progress : List ProgressUpdate) (ocrCalls : Nat) : AgentResult :=
  let c := isCancelledError e
  { record := { essay with
      status := if c then "CANCELLED" else "ERROR"
      ocrText := jsOr textForModel (jsOr essay.ocrText (jsStr essay.rawText))
      progressStep := some (if c then "cancelled" else "error")
      progressMessage := if c then some "用户已取消批改" else essay.progressMessage
      errorMessage := some (if c then "用户已取消批改" else jsOr e.message "Processing failed") }
    ocrCalls := ocrCalls
    progress := progress }

/-- `processEssayAgent`.  OCR runs only for an image essay with a file when
`skipOcr` is false; an OCR failure is swallowed and grading is still
attempted with the previously available text.  All other failures reach the
catch block, so the promise always resolves to a record. -/
def processEssayAgent (essay : Essay) (env : AgentEnv) (skipOcr : Bool) : AgentResult :=
  let textForModel0 := jsOr (jsStr essay.rawText) essay.ocrText
  if abortedAt env.abortAt 0 then
    agentCatch essay textForModel0 ⟨"Processing cancelled", false⟩ [] 0
  else
    let ocrPhase :=
      if essay.submissionType == "image" && essay.hasFile && !skipOcr then
        let p0 : ProgressUpdate :=
          { progressStep := some "ocr", progressMessage := some "正在执行手写OCR..." }
        let ocrRes := if abortedAt env.abortAt 1 then
            Except.error (⟨"Processing cancelled", false⟩ : AgentErr)
          else env.ocrOutcome
        match ocrRes with
        | .ok t =>
          (t, [p0, { ocrText := some t, progressStep := some "ocr_complete",
                     progressMessage := some "OCR完成，准备批改" }], 1)
        | .error _ =>
          (jsOr textForModel0 "",
           [p0, { progressStep := some "ocr",
                  progressMessage := some "OCR失败，继续尝试直接批改" }], 1)
      else (textForModel0, ([] : List ProgressUpdate), 0)
    let textForModel := ocrPhase.1
    let ocrCalls := ocrPhase.2.2
    let prog2 := ocrPhase.2.1 ++
      [{ progressStep := some "grading",
         progressMessage := some (if skipOcr then "AI批改重试中..." else "AI批改中...") }]
    if abortedAt env.abortAt 2 then
      agentCatch essay textForModel ⟨"Processing cancelled", false⟩ prog2 ocrCalls
    else
      let baseText := jsTrim (jsOr textForModel (jsStr essay.rawText))
      if baseText == "" && !essay.hasFile then
        agentCatch essay textForModel ⟨"No file provided for image submission", false⟩
          prog2 ocrCalls
      else
        let bundleRead := if baseText == "" then env.fileRead else Except.ok ()
        match bundleRead with
        | .error e => agentCatch essay textForModel e prog2 ocrCalls
        | .ok _ =>
          let routeRes := if abortedAt env.abortAt 3 then
              Except.error (⟨"Processing cancelled", false⟩ : AgentErr)
            else env.routeOutcome
          match routeRes with
          | .error e => agentCatch essay textForModel e prog2 ocrCalls
          | .ok _jsonText =>
            match env.parsed with
            | none =>
              agentCatch essay textForModel ⟨"Unexpected token in JSON", false⟩ prog2 ocrCalls
            | some result =>
              { record := { essay with
                  status := "COMPLETED"
                  studentName :=
                    some (jsOr (jsStr result.studentName)
                      (jsOr (jsStr essay.studentName) "Unknown Student"))
                  date := some (jsOr (jsStr result.date) (jsOr (jsStr essay.date) env.today))
                  ocrText := jsOr (jsStr result.ocrText)
                    (jsOr textForModel (jsStr essay.rawText))
                  gradingResult := result.gradingResult
                  progressStep := some "done"
                  progressMessage := some "批改完成" }
                ocrCalls := ocrCalls
                progress := prog2 ++ [{ progressStep := some "done",
                                        progressMessage := some "批改完成" }] }

/-- The user's model selection (`config.model`). -/
structure ModelSel where
  provider : String
  model : String
deriving Repr, DecidableEq

/-- Trace of one `runGradingStep`: the agent run plus the sequence of essay
updates applied through `updateEssay` (the pre-step update, the forwarded
`onProgress` updates, and the final update). -/
structure GradingStepRun where
  agent : AgentResult
  updates : List ProgressUpdate
deriving Repr, DecidableEq

/-- `runGradingStep` (App.tsx): registers a fresh abort controller, marks the
essay as processing/grading, and invokes `processEssayAgent` with
`skipOcr: true` on the essay with `ocrText: essay.ocrText || essay.rawText
|| ''`.  Since `processEssayAgent` always resolves, the step always applies
its final update. -/
def runGradingStep (essay : Essay) (sel : ModelSel) (env : AgentEnv) : GradingStepRun :=
  let essay1 := { essay with ocrText := jsOr essay.ocrText (jsStr essay.rawText) }
  let pre : ProgressUpdate :=
    { progressStep := some "grading",
      progressMessage := some ("AI批改中（" ++ sel.provider ++ ":" ++ sel.model ++ "）") }
  let agentOut := processEssayAgent essay1 env true
  let post : ProgressUpdate :=
    { progressStep := some "done", progressMessage := some "批改完成",
      ocrText := some agentOut.record.ocrText }
  { agent := agentOut, updates := pre :: (agentOut.progress ++ [post]) }

/-- `handleRetry` (App.tsx): look the essay up by id and rerun the grading
step for it; no OCR step is involved. -/
def handleRetry (essays : List Essay) (id : String) (sel : ModelSel)
    (env : AgentEnv) : Option GradingStepRun :=
  (essays.find? (fun e => e.id == id)).map (fun target => runGradingStep target sel env)

/-! ## Persistence layer (`persistence.ts`) -/

/-- A stored essay as it sits in the local-storage JSON blob: the `file`
handle is stripped, every other field may be absent.  (Inert metadata fields
are again omitted.) -/
structure PersistableEssay where
  id : String
  submissionType : String
  rawText : Option String
  ocrText : Option String
  status : Option String
  progressStep : Option String
  progressMessage : Option String
  ocrStatus : Option String
  gradingStatus : Option String
  errorMessage : Option String
  addedAt : Option String
deriving Repr, DecidableEq

/-- An essay after `reviveEssay` filled in the defaults. -/
structure RevivedEssay where
  id : String
  submissionType : String
  rawText : Option String
  ocrText : String
  status : String
  progressStep : String
  progressMessage : String
  ocrStatus : String
  gradingStatus : String
  errorMessage : Option String
  addedAt : Option String
deriving Repr, DecidableEq

/-- The defaults block at the top of `reviveEssay`. -/
def withDefaults (e : PersistableEssay) (fallbackAddedAt : String) : RevivedEssay :=
  { id := e.id
    submissionType := e.submissionType
    rawText := e.rawText
    ocrText := jsStr e.ocrText
    progressStep := jsOrO e.progressStep "queued"
    progressMessage := jsOrO e.progressMessage "Waiting in queue"
    ocrStatus := jsOrO e.ocrStatus "idle"
    gradingStatus := jsOrO e.gradingStatus "idle"
    status := jsOrO e.status "PENDING"
    errorMessage := e.errorMessage
    addedAt := some (jsOrO e.addedAt fallbackAddedAt) }

/-- `resetIfInterrupted`: an essay caught in `PROCESSING` is reset to
`PENDING`, its `processing` sub-statuses downgraded to `idle`, with a fresh
queued progress message. -/
def resetIfInterrupted (e : RevivedEssay) : RevivedEssay :=
  if e.status != "PROCESSING" then e
  else { e with
    status := "PENDING"
    ocrStatus := if e.ocrStatus == "processing" then "idle" else e.ocrStatus
    gradingStatus := if e.gradingStatus == "processing" then "idle" else e.gradingStatus
    progressStep := "queued"
    progressMessage := "刷新后可重新开始批改" }

/-- `markMissingSource`: an image essay lacking both OCR text and raw text is
flagged as an unrecoverable error needing re-upload. -/
def markMissingSource (e : RevivedEssay) : RevivedEssay :=
  if e.submissionType == "image" && e.ocrText == "" && jsStr e.rawText == "" then
    { e with
      status := "ERROR"
      ocrStatus := "error"
      gradingStatus := "skipped"
      progressStep := "error"
      progressMessage := "源图片不可用，请重新上传后再试"
      errorMessage := some (jsOrO e.errorMessage "源图片不可用，请重新上传后再试") }
  else e

/-- `reviveEssay`: defaults, then the interrupted-processing reset, then the
missing-source marking (which therefore takes precedence). -/
def reviveEssay (e : PersistableEssay) (fallbackAddedAt : String) : RevivedEssay :=
  markMissingSource (resetIfInterrupted (withDefaults e fallbackAddedAt))

/-- The `essays` field of the parsed storage payload: absent/falsy, present
but not an array, or an array of stored essays (the TypeScript cast performs
no per-field validation beyond what `reviveEssay` reads). -/
inductive EssaysField where
  | missing
  | notArray
  | arr (essays : List PersistableEssay)
deriving Repr, DecidableEq

/-- What `localStorage.getItem(STORAGE_KEY)` plus `JSON.parse` can produce:
no stored entry, a string `JSON.parse` throws on, or a parsed payload. -/
inductive StoredState where
  | absent
  | malformed
  | payload (essays : EssaysField) (savedAt : Option String)
deriving Repr, DecidableEq

/-- The body of `loadPersistedEssays` up to its try/catch: `JSON.parse` errors
propagate as exceptions. -/
def loadPersistedEssaysCore (s : StoredState) (now : String) :
    Except String (List RevivedEssay) :=
  match s with
  | .absent => .ok []
  | .malformed => .error "SyntaxError: unexpected token in JSON"
  | .payload .missing _ => .ok []
  | .payload .notArray _ => .ok []
  | .payload (.arr es) savedAt =>
    let fallbackAddedAt := jsOrO savedAt now
    .ok (es.map (fun e => reviveEssay e fallbackAddedAt))

/-- `loadPersistedEssays`: the catch block converts any exception into the
empty list.  `now` is `new Date().toISOString()`. -/
def loadPersistedEssays (s : StoredState) (now : String) : List RevivedEssay :=
  match loadPersistedEssaysCore s now with
  | .ok es => es
  | .error _ => []

/-! ## Concrete inputs and trace predicates used by the theorems -/

/-- A persisted image essay interrupted mid-OCR: status `PROCESSING`, no
captured text. -/
def interruptedImageEssay : PersistableEssay :=
  { id := "e1", submissionType := "image", rawText := none, ocrText := some "",
    status := some "PROCESSING", progressStep := some "ocr", progressMessage := none,
    ocrStatus := some "processing", gradingStatus := some "idle", errorMessage := none,
    addedAt := some "2024-01-01T00:00:00.000Z" }

/-- A persisted text essay interrupted mid-grading. -/
def interruptedTextEssay : PersistableEssay :=
  { id := "e2", submissionType := "text", rawText := some "My essay", ocrText := some "",
    status := some "PROCESSING", progressStep := some "grading", progressMessage := none,
    ocrStatus := some "skipped", gradingStatus := some "processing", errorMessage := none,
    addedAt := none }

/-- A persisted image essay whose source (and text) is gone. -/
def lostImageEssay : PersistableEssay :=
  { id := "e3", submissionType := "image", rawText := none, ocrText := none,
    status := some "COMPLETED", progressStep := some "done", progressMessage := some "done",
    ocrStatus := some "done", gradingStatus := some "done", errorMessage := none,
    addedAt := none }

/-- A failed essay with captured OCR text, as `handleRetry` would find it. -/
def retryTarget : Essay :=
  { id := "a1", submissionType := "image", hasFile := true, rawText := none,
    ocrText := "captured text", status := "ERROR", progressStep := some "error",
    progressMessage := some "AI批改失败", studentName := none, date := none,
    ocrStatus := some "done", gradingStatus := some "error", gradingResult := none,
    errorMessage := some "boom" }

/-- A quiet environment for concrete agent runs: never aborted, all calls
succeed. -/
def quietEnv : AgentEnv :=
  { abortAt := none, ocrOutcome := .ok "fresh ocr", fileRead := .ok (),
    routeOutcome := .ok "raw json", parsed := some ⟨some "Amy", some "20240101", some "captured text", some "payload"⟩,
    today := "2024/1/1" }

/-- An essay with captured OCR text about to be cancelled mid-grading. -/
def cancelledTarget : Essay :=
  { id := "b1", submissionType := "image", hasFile := true, rawText := none,
    ocrText := "Hi there", status := "PROCESSING", progressStep := some "grading",
    progressMessage := none, studentName := none, date := none, ocrStatus := some "done",
    gradingStatus := some "processing", gradingResult := none, errorMessage := none }

/-- An environment whose signal aborts at the pre-grading check. -/
def cancelEnv : AgentEnv :=
  { abortAt := some 2, ocrOutcome := .ok "unused", fileRead := .ok (),
    routeOutcome := .ok "unused", parsed := none, today := "2024/1/1" }

/-- A "still processing" status poll. -/
def processingResp : PollResponse := ⟨some "processing", none, none, none, 200⟩

/-- A processed poll with a single page reading "Hello". -/
def processedHello : PollResponse :=
  ⟨some "processed", some [⟨some 1, some "Hello"⟩], none, none, 200⟩

/-- A processed poll with a single page reading "ok". -/
def processedOk : PollResponse :=
  ⟨some "processed", some [⟨some 1, some "ok"⟩], none, none, 200⟩

/-- A rate-limited (HTTP 429) poll, optionally carrying Retry-After. -/
def rateResp (ra : Option Nat) : PollResponse := ⟨none, none, none, ra, 429⟩

/-- Responses that stay "processing" until the wall-clock budget is exhausted
(17 loop polls under the default options), then turn processed. -/
def c3Responses : Nat → PollResponse := fun i =>
  if i < 17 then processingResp else processedHello

/-- A 429 poll with Retry-After 25s, then a 429 poll without the header, then
processed. -/
def c4Responses : Nat → PollResponse := fun i =>
  if i = 0 then rateResp (some 25000) else if i = 1 then rateResp none else processedOk

/-- Two "processing" polls then a processed two-page document. -/
def c5Responses : Nat → PollResponse := fun i =>
  if i < 2 then processingResp
  else ⟨some "processed", some [⟨some 1, some "Hello"⟩, ⟨some 2, some "World"⟩], none, none, 200⟩

/-- A processed document whose pages are listed against their page numbers. -/
def outOfOrderResp : PollResponse :=
  ⟨some "processed", some [⟨some 2, some "World"⟩, ⟨some 1, some "Hello"⟩], none, none, 200⟩

/-- A 429 poll with Retry-After 30s, two plain "processing" polls, then
processed. -/
def c6Responses : Nat → PollResponse := fun i =>
  if i = 0 then rateResp (some 30000) else if i < 3 then processingResp else processedOk

/-- The wait equation every backoff step of the polling loop satisfies. -/
def stepWaitEq (pollIntervalMs : Nat) (s : BackoffStep) : Prop :=
  s.wait = (if s.httpStatus = 429 then s.retryAfterMs.getD (min (s.delayBefore * 2) 30000)
    else if s.httpStatus = 404 then max s.delayBefore (pollIntervalMs * 2)
    else s.delayBefore)

/-- How one backoff step determines the delay the next iteration enters with. -/
def stepLink (pollIntervalMs : Nat) (a b : BackoffStep) : Prop :=
  b.delayBefore = min (a.wait + pollIntervalMs) (if a.httpStatus = 429 then 45000 else 20000)

/-! ## Theorems -/

/-- C7: For every grading request routed to provider "openai" while no OpenAI
API key is configured (absent or empty), `routeModel` fails with the error
"OpenAI API key is missing" and issues zero HTTP requests. -/
theorem C7_openai_missing_key :
    ∀ (cfg : ModelConfig) (replies : ProviderReplies),
      jsStr cfg.openaiKey = "" →
      routeModel cfg "openai" false replies =
        { result := .error ⟨"OpenAI API key is missing", false⟩, httpCalls := 0 } := by
  intro cfg replies h
  simp [routeModel, runOpenAIStyleModel, h]

/-- Witness for C7 at a concrete unconfigured-key state. -/
theorem C7_openai_missing_key_witness :
    routeModel ⟨none, some "or-key", some "g-key", some "d-key"⟩ "openai" false
        ⟨⟨true, none, some (.str "{}")⟩, ⟨true, none, none⟩⟩ =
      { result := .error ⟨"OpenAI API key is missing", false⟩, httpCalls := 0 } :=
  C7_openai_missing_key _ _ rfl

/-- C10: `loadPersistedEssays` is total at its public interface: with no
stored entry, with malformed JSON, or with a parsed payload whose `essays`
field is missing/falsy or not an array, it returns the empty list (the
exception thrown by `JSON.parse` is caught). -/
theorem C10_load_total_on_bad_states :
    ∀ (now : String) (sa : Option String),
      loadPersistedEssays .absent now = [] ∧
      loadPersistedEssays .malformed now = [] ∧
      loadPersistedEssays (.payload .missing sa) now = [] ∧
      loadPersistedEssays (.payload .notArray sa) now = [] := by
  intro now sa
  exact ⟨rfl, rfl, rfl, rfl⟩

/-- C8 counterexample: loading a persisted essay whose stored status is
`PROCESSING` does NOT always yield status `PENDING` — an image essay lacking
both OCR text and raw text is instead marked `ERROR` by `markMissingSource`,
which runs after `resetIfInterrupted`. -/
theorem C8_interrupted_reset_counterexample :
    ((loadPersistedEssays
        (.payload (.arr [interruptedImageEssay]) (some "2024-01-02T00:00:00.000Z"))
        "2024-01-03T00:00:00.000Z").map (fun e => e.status)) = ["ERROR"] ∧
      ("ERROR" : String) ≠ "PENDING" := by
  exact ⟨rfl, by decide⟩

lemma reset_submissionType (e : PersistableEssay) (fb : String) :
    (resetIfInterrupted (withDefaults e fb)).submissionType = e.submissionType := by
  unfold resetIfInterrupted withDefaults
  split <;> rfl

lemma reset_ocrText (e : PersistableEssay) (fb : String) :
    (resetIfInterrupted (withDefaults e fb)).ocrText = jsStr e.ocrText := by
  unfold resetIfInterrupted withDefaults
  split <;> rfl

lemma reset_rawText (e : PersistableEssay) (fb : String) :
    (resetIfInterrupted (withDefaults e fb)).rawText = e.rawText := by
  unfold resetIfInterrupted withDefaults
  split <;> rfl

/-- C8 (amended): for every persisted essay with stored status `PROCESSING`
that is not an image essay lacking both OCR text and raw text, loading yields
status `PENDING`, downgrades each `processing` sub-status to `idle`, leaves
other (non-empty) stored sub-statuses unchanged, and sets the explanatory
progress message. -/
theorem C8_interrupted_reset_amended :
    ∀ (e : PersistableEssay) (fb : String),
      e.status = some "PROCESSING" →
      ¬(e.submissionType = "image" ∧ jsStr e.ocrText = "" ∧ jsStr e.rawText = "") →
      (reviveEssay e fb).status = "PENDING" ∧
      (reviveEssay e fb).progressStep = "queued" ∧
      (reviveEssay e fb).progressMessage = "刷新后可重新开始批改" ∧
      (e.ocrStatus = some "processing" → (reviveEssay e fb).ocrStatus = "idle") ∧
      (e.gradingStatus = some "processing" → (reviveEssay e fb).gradingStatus = "idle") ∧
      (∀ s, e.ocrStatus = some s → s ≠ "processing" → s ≠ "" →
        (reviveEssay e fb).ocrStatus = s) ∧
      (∀ s, e.gradingStatus = some s → s ≠ "processing" → s ≠ "" →
        (reviveEssay e fb).gradingStatus = s) := by
  intro e fb h1 h2
  have hmark : ∀ r : RevivedEssay, r.submissionType = e.submissionType →
      r.ocrText = jsStr e.ocrText → r.rawText = e.rawText → markMissingSource r = r := by
    intro r hs ho hr
    unfold markMissingSource
    have hcond : (r.submissionType == "image" && r.ocrText == "" && jsStr r.rawText == "")
        = false := by
      by_contra hb
      have hb' : (r.submissionType == "image" && r.ocrText == "" && jsStr r.rawText == "")
          = true := by
        revert hb
        cases (r.submissionType == "image" && r.ocrText == "" && jsStr r.rawText == "") <;> simp
      simp only [Bool.and_eq_true, beq_iff_eq] at hb'
      exact h2 ⟨hs ▸ hb'.1.1, ho ▸ hb'.1.2, hr ▸ hb'.2⟩
    rw [hcond]
    simp
  unfold reviveEssay
  rw [hmark _ (reset_submissionType e fb) (reset_ocrText e fb) (reset_rawText e fb)]
  unfold resetIfInterrupted withDefaults
  simp only [h1]
  have hstat : jsOrO (some "PROCESSING") "PENDING" = "PROCESSING" := by decide
  rw [hstat]
  simp only [bne_self_eq_false, Bool.false_eq_true, if_false]
  refine ⟨by trivial, by trivial, by trivial, ?_, ?_, ?_, ?_⟩
  · intro ho; rw [ho]; decide
  · intro hg; rw [hg]; decide
  · intro s hs hne hne'
    rw [hs]
    have h1' : jsOrO (some s) "idle" = s := by
      simp [jsOrO, jsOr, jsStr, hne']
    rw [h1']
    simp [beq_eq_false_iff_ne.mpr hne]
  · intro s hs hne hne'
    rw [hs]
    have h1' : jsOrO (some s) "idle" = s := by
      simp [jsOrO, jsOr, jsStr, hne']
    rw [h1']
    simp [beq_eq_false_iff_ne.mpr hne]

/-- Witness for the amended C8 at a concrete interrupted text essay. -/
theorem C8_interrupted_reset_amended_witness :
    (reviveEssay interruptedTextEssay "2024-01-03T00:00:00.000Z").status = "PENDING" ∧
      (reviveEssay interruptedTextEssay "2024-01-03T00:00:00.000Z").gradingStatus = "idle" ∧
      (reviveEssay interruptedTextEssay "2024-01-03T00:00:00.000Z").ocrStatus = "skipped" :=
  by
  have h := C8_interrupted_reset_amended interruptedTextEssay "2024-01-03T00:00:00.000Z"
    rfl (by intro hc; exact absurd hc.1 (by decide))
  exact ⟨h.1, h.2.2.2.2.1 rfl, h.2.2.2.2.2.1 "skipped" rfl (by decide) (by decide)⟩

/-- C9: on load, an image essay lacking both OCR text and raw text is marked
as an unrecoverable error with a re-upload message and a set error message;
every other essay is left untouched by `markMissingSource`. -/
theorem C9_missing_source_marked :
    ∀ (e : PersistableEssay) (fb : String),
      ((e.submissionType = "image" ∧ jsStr e.ocrText = "" ∧ jsStr e.rawText = "") →
        (reviveEssay e fb).status = "ERROR" ∧
        (reviveEssay e fb).ocrStatus = "error" ∧
        (reviveEssay e fb).gradingStatus = "skipped" ∧
        (reviveEssay e fb).progressMessage = "源图片不可用，请重新上传后再试" ∧
        (reviveEssay e fb).errorMessage.isSome = true) ∧
      (¬(e.submissionType = "image" ∧ jsStr e.ocrText = "" ∧ jsStr e.rawText = "") →
        reviveEssay e fb = resetIfInterrupted (withDefaults e fb)) := by
  intro e fb
  constructor
  · intro ⟨ht, ho, hr⟩
    unfold reviveEssay markMissingSource
    have hcond : ((resetIfInterrupted (withDefaults e fb)).submissionType == "image" &&
        (resetIfInterrupted (withDefaults e fb)).ocrText == "" &&
        jsStr (resetIfInterrupted (withDefaults e fb)).rawText == "") = true := by
      have hsub : (resetIfInterrupted (withDefaults e fb)).submissionType
          = e.submissionType := by
        unfold resetIfInterrupted withDefaults
        split <;> rfl
      have hocr : (resetIfInterrupted (withDefaults e fb)).ocrText = jsStr e.ocrText := by
        unfold resetIfInterrupted withDefaults
        split <;> rfl
      have hraw : (resetIfInterrupted (withDefaults e fb)).rawText = e.rawText := by
        unfold resetIfInterrupted withDefaults
        split <;> rfl
      simp [hsub, hocr, hraw, ht, ho, hr]
    rw [hcond]
    simp
  · intro hn
    unfold reviveEssay markMissingSource
    have hsub : (resetIfInterrupted (withDefaults e fb)).submissionType = e.submissionType := by
      unfold resetIfInterrupted withDefaults
      split <;> rfl
    have hocr : (resetIfInterrupted (withDefaults e fb)).ocrText = jsStr e.ocrText := by
      unfold resetIfInterrupted withDefaults
      split <;> rfl
    have hraw : (resetIfInterrupted (withDefaults e fb)).rawText = e.rawText := by
      unfold resetIfInterrupted withDefaults
      split <;> rfl
    have hcond : ((resetIfInterrupted (withDefaults e fb)).submissionType == "image" &&
        (resetIfInterrupted (withDefaults e fb)).ocrText == "" &&
        jsStr (resetIfInterrupted (withDefaults e fb)).rawText == "") = false := by
      by_contra hb
      have hb' : ((resetIfInterrupted (withDefaults e fb)).submissionType == "image" &&
          (resetIfInterrupted (withDefaults e fb)).ocrText == "" &&
          jsStr (resetIfInterrupted (withDefaults e fb)).rawText == "") = true := by
        revert hb
        cases ((resetIfInterrupted (withDefaults e fb)).submissionType == "image" &&
          (resetIfInterrupted (withDefaults e fb)).ocrText == "" &&
          jsStr (resetIfInterrupted (withDefaults e fb)).rawText == "") <;> simp
      simp only [Bool.and_eq_true, beq_iff_eq, hsub, hocr, hraw] at hb'
      exact hn ⟨hb'.1.1, hb'.1.2, hb'.2⟩
    rw [hcond]
    simp

/-- Witness for C9 at a concrete sourceless image essay. -/
theorem C9_missing_source_marked_witness :
    (reviveEssay lostImageEssay "t0").status = "ERROR" ∧
      (reviveEssay lostImageEssay "t0").progressMessage = "源图片不可用，请重新上传后再试" :=
  by
  have h := (C9_missing_source_marked lostImageEssay "t0").1 ⟨rfl, rfl, rfl⟩
  exact ⟨h.1, h.2.2.2.1⟩

lemma jsOr_empty_left (b : String) : jsOr "" b = b := by simp [jsOr]

lemma jsOr_ne_left (a b : String) (h : a ≠ "") : jsOr a b = a := by simp [jsOr, h]

lemma ne_empty_of_trim_ne {s : String} (h : jsTrim s ≠ "") : s ≠ "" := by
  intro hs
  apply h
  rw [hs]
  rfl

lemma cancelMarker : isCancelledError ⟨"Processing cancelled", false⟩ = true := by decide

lemma agent_skipOcr_progress (essay : Essay) (env : AgentEnv) :
    (processEssayAgent essay env true).ocrCalls = 0 ∧
    ∀ u ∈ (processEssayAgent essay env true).progress,
      u.progressStep = some "grading" ∨ u.progressStep = some "done" := by
  unfold processEssayAgent agentCatch
  simp only [Bool.not_true, Bool.and_false, Bool.false_eq_true, if_false]
  split
  · constructor
    · rfl
    · intro u hu
      simp at hu
  · split
    · constructor
      · rfl
      · intro u hu
        simp at hu
        subst hu
        left
        rfl
    · split
      · constructor
        · rfl
        · intro u hu
          simp at hu
          subst hu
          left
          rfl
      · split
        · constructor
          · rfl
          · intro u hu
            simp at hu
            subst hu
            left
            rfl
        · split
          · constructor
            · rfl
            · intro u hu
              simp at hu
              subst hu
              left
              rfl
          · split
            · constructor
              · rfl
              · intro u hu
                simp at hu
                subst hu
                left
                rfl
            · constructor
              · rfl
              · intro u hu
                simp at hu
                rcases hu with hu | hu
                · subst hu; left; rfl
                · subst hu; right; rfl

/-- C1: `handleRetry` on an essay that already has OCR text or raw text runs
the grading step only: `transcribeHandwriting` is never invoked (zero OCR
calls), the first state update re-enters at the `grading` step, and no update
of the run ever carries the `ocr`/`ocr_complete` steps. -/
theorem C1_retry_skips_ocr :
    ∀ (essays : List Essay) (id : String) (sel : ModelSel) (env : AgentEnv)
      (target : Essay) (run : GradingStepRun),
      essays.find? (fun e => e.id == id) = some target →
      (target.ocrText ≠ "" ∨ jsStr target.rawText ≠ "") →
      handleRetry essays id sel env = some run →
      run.agent.ocrCalls = 0 ∧
      run.updates.head?.map (fun u => u.progressStep) = some (some "grading") ∧
      ∀ u ∈ run.updates, u.progressStep ≠ some "ocr" ∧ u.progressStep ≠ some "ocr_complete" := by
  intro essays id sel env target run hfind _hhas hrun
  have hr : run = runGradingStep target sel env := by
    unfold handleRetry at hrun
    rw [hfind] at hrun
    simpa using hrun.symm
  subst hr
  obtain ⟨hocr, hsteps⟩ :=
    agent_skipOcr_progress { target with ocrText := jsOr target.ocrText (jsStr target.rawText) } env
  refine ⟨hocr, rfl, ?_⟩
  intro u hu
  unfold runGradingStep at hu
  simp only [List.mem_cons, List.mem_append, List.mem_singleton, List.not_mem_nil,
    or_false] at hu
  rcases hu with hu | hu | hu
  · subst hu
    exact ⟨by simp, by simp⟩
  · rcases hsteps u hu with h | h <;> rw [h] <;> exact ⟨by simp, by simp⟩
  · subst hu
    exact ⟨by simp, by simp⟩

/-- Witness for C1: a concrete retry performs zero OCR calls and starts at the
grading step. -/
theorem C1_retry_skips_ocr_witness :
    (runGradingStep retryTarget ⟨"openai", "gpt-4o-mini"⟩ quietEnv).agent.ocrCalls = 0 ∧
      (runGradingStep retryTarget ⟨"openai", "gpt-4o-mini"⟩ quietEnv).updates.head?.map
        (fun u => u.progressStep) = some (some "grading") := by
  have h := C1_retry_skips_ocr [retryTarget] "a1" ⟨"openai", "gpt-4o-mini"⟩ quietEnv
    retryTarget (runGradingStep retryTarget ⟨"openai", "gpt-4o-mini"⟩ quietEnv)
    rfl (Or.inl (by decide)) rfl
  exact ⟨h.1, h.2.1⟩

/-- C2: every `processEssayAgent` run aborted through its cancellation signal
(at any of the signal's observation points) resolves to the distinct cancelled
state — status `CANCELLED`, progress step `cancelled`, the cancellation
message — not the generic error state, and the essay's already-captured OCR
text is kept in the returned record (stated for the app's call shape:
`skipOcr` retries of an essay whose text lives in `ocrText`). -/
theorem C2_cancelled_distinct_and_preserves_text :
    ∀ (essay : Essay) (env : AgentEnv) (t : Nat),
      env.abortAt = some t → t ≤ 3 →
      jsStr essay.rawText = "" →
      jsTrim essay.ocrText ≠ "" →
      (processEssayAgent essay env true).record.status = "CANCELLED" ∧
      (processEssayAgent essay env true).record.status ≠ "ERROR" ∧
      (processEssayAgent essay env true).record.progressStep = some "cancelled" ∧
      (processEssayAgent essay env true).record.progressMessage = some "用户已取消批改" ∧
      (processEssayAgent essay env true).record.errorMessage = some "用户已取消批改" ∧
      (processEssayAgent essay env true).record.ocrText = essay.ocrText := by
  intro essay env t ha ht h3 h4
  have hne : essay.ocrText ≠ "" := ne_empty_of_trim_ne h4
  have htxt : jsOr (jsStr essay.rawText) essay.ocrText = essay.ocrText := by
    rw [h3]
    exact jsOr_empty_left _
  have hkeep : jsOr essay.ocrText (jsOr essay.ocrText (jsStr essay.rawText)) = essay.ocrText :=
    jsOr_ne_left _ _ hne
  interval_cases t
  · have h0 : abortedAt env.abortAt 0 = true := by rw [ha]; decide
    unfold processEssayAgent agentCatch
    rw [h0]
    simp [cancelMarker, htxt, hkeep]
  · have h0 : abortedAt env.abortAt 0 = false := by rw [ha]; decide
    have h2 : abortedAt env.abortAt 2 = true := by rw [ha]; decide
    unfold processEssayAgent agentCatch
    rw [h0, h2]
    simp [cancelMarker, htxt, hkeep]
  · have h0 : abortedAt env.abortAt 0 = false := by rw [ha]; decide
    have h2 : abortedAt env.abortAt 2 = true := by rw [ha]; decide
    unfold processEssayAgent agentCatch
    rw [h0, h2]
    simp [cancelMarker, htxt, hkeep]
  · have h0 : abortedAt env.abortAt 0 = false := by rw [ha]; decide
    have h2 : abortedAt env.abortAt 2 = false := by rw [ha]; decide
    have h3' : abortedAt env.abortAt 3 = true := by rw [ha]; decide
    have hbase : jsTrim (jsOr (jsOr (jsStr essay.rawText) essay.ocrText) (jsStr essay.rawText))
        = jsTrim essay.ocrText := by
      rw [htxt, h3, jsOr_ne_left _ _ hne]
    have hbeq : (jsTrim essay.ocrText == "") = false := beq_eq_false_iff_ne.mpr h4
    unfold processEssayAgent agentCatch
    rw [h0, h2]
    simp only [Bool.not_true, Bool.and_false, Bool.false_eq_true, if_false, hbase, hbeq,
      Bool.false_and, h3']
    simp [cancelMarker, htxt, hkeep]

/-- Witness for C2 at a concrete cancelled run. -/
theorem C2_cancelled_distinct_and_preserves_text_witness :
    (processEssayAgent cancelledTarget cancelEnv true).record.status = "CANCELLED" ∧
      (processEssayAgent cancelledTarget cancelEnv true).record.progressStep
        = some "cancelled" ∧
      (processEssayAgent cancelledTarget cancelEnv true).record.ocrText = "Hi there" := by
  have h := C2_cancelled_distinct_and_preserves_text cancelledTarget cancelEnv 2
    rfl (by decide) rfl (by decide)
  exact ⟨h.1, h.2.2.1, h.2.2.2.2.2⟩

lemma pollLoop_steps_wait (responses : Nat → PollResponse) (abortAt : Option Nat)
    (pollIntervalMs maxWaitMs : Nat) :
    ∀ (fuel idx elapsed d : Nat),
      ∀ s ∈ (pollLoop responses abortAt pollIntervalMs maxWaitMs fuel idx elapsed d).steps,
        stepWaitEq pollIntervalMs s := by
  intro fuel
  induction fuel with
  | zero =>
    intro idx e d s hs
    simp [pollLoop] at hs
  | succ n ih =>
    intro idx e d s hs
    simp only [pollLoop] at hs
    split at hs
    · simp at hs
    · split at hs
      · simp at hs
      · split at hs
        · split at hs <;> simp at hs
        · split at hs
          · simp at hs
          · simp only [List.mem_cons] at hs
            rcases hs with hs | hs
            · subst hs
              simp [stepWaitEq, computeWait]
            · exact ih (idx + 1) _ _ s hs

lemma pollLoop_steps_headDelay (responses : Nat → PollResponse) (abortAt : Option Nat)
    (pollIntervalMs maxWaitMs : Nat) :
    ∀ (fuel idx elapsed d : Nat),
      ((pollLoop responses abortAt pollIntervalMs maxWaitMs fuel idx elapsed d).steps.head?.all
        (fun s => s.delayBefore == d)) = true := by
  intro fuel
  induction fuel with
  | zero =>
    intro idx e d
    rfl
  | succ n _ =>
    intro idx e d
    simp only [pollLoop]
    split
    · rfl
    · split
      · rfl
      · split
        · split <;> rfl
        · split
          · rfl
          · simp

lemma pollLoop_steps_chain (responses : Nat → PollResponse) (abortAt : Option Nat)
    (pollIntervalMs maxWaitMs : Nat) :
    ∀ (fuel idx elapsed d : Nat),
      List.Chain' (stepLink pollIntervalMs)
        (pollLoop responses abortAt pollIntervalMs maxWaitMs fuel idx elapsed d).steps := by
  intro fuel
  induction fuel with
  | zero =>
    intro idx e d
    exact List.chain'_nil
  | succ n ih =>
    intro idx e d
    simp only [pollLoop]
    split
    · exact List.chain'_nil
    · split
      · exact List.chain'_nil
      · split
        · split <;> exact List.chain'_nil
        · split
          · exact List.chain'_nil
          · rcases hrest : (pollLoop responses abortAt pollIntervalMs maxWaitMs n (idx + 1)
                (e + computeWait d pollIntervalMs (responses idx))
                (nextDynamicDelay pollIntervalMs (computeWait d pollIntervalMs (responses idx))
                  (responses idx))).steps with _ | ⟨shead, stail⟩
            · simp [hrest]
            · have hh := pollLoop_steps_headDelay responses abortAt pollIntervalMs maxWaitMs
                n (idx + 1) (e + computeWait d pollIntervalMs (responses idx))
                (nextDynamicDelay pollIntervalMs (computeWait d pollIntervalMs (responses idx))
                  (responses idx))
              rw [hrest] at hh
              simp only [List.head?_cons, Option.all_some, beq_iff_eq] at hh
              have hchain := ih (idx + 1)
                (e + computeWait d pollIntervalMs (responses idx))
                (nextDynamicDelay pollIntervalMs (computeWait d pollIntervalMs (responses idx))
                  (responses idx))
              rw [hrest] at hchain
              simp only [hrest]
              refine List.chain'_cons.2 ⟨?_, hchain⟩
              show shead.delayBefore = _
              rw [hh]
              rfl

lemma transcribe_steps_cases (key : Option String) (upload : Except String String)
    (R : Nat → PollResponse) (a : Option Nat) (o : OcrOptions) :
    (transcribeHandwriting key upload R a o).steps = [] ∨
    (transcribeHandwriting key upload R a o).steps =
      (pollLoop R a o.pollIntervalMs o.maxWaitMs o.maxAttempts 0 0 o.pollIntervalMs).steps := by
  unfold transcribeHandwriting
  split
  · left; rfl
  · split
    · left; rfl
    · split
      · left; rfl
      · dsimp only
        split
        · right; rfl
        · right; rfl
        · split
          · right; rfl
          · split
            · right; rfl
            · right; rfl

/-- C4 (amended): within every `transcribeHandwriting` run, a rate-limited
(HTTP 429) backoff iteration waits exactly the vendor's Retry-After value when
the header is present — hence at least that value — and otherwise waits the
current adaptive delay doubled, capped at a 30-second (not 45-second)
ceiling. -/
theorem C4_rate_limited_wait :
    ∀ (key : Option String) (upload : Except String String) (R : Nat → PollResponse)
      (a : Option Nat) (o : OcrOptions),
      ∀ s ∈ (transcribeHandwriting key upload R a o).steps, s.httpStatus = 429 →
        s.wait = s.retryAfterMs.getD (min (s.delayBefore * 2) 30000) ∧
        ∀ ra, s.retryAfterMs = some ra → ra ≤ s.wait := by
  intro key upload R a o s hs h429
  have hwait : stepWaitEq o.pollIntervalMs s := by
    rcases transcribe_steps_cases key upload R a o with hc | hc
    · rw [hc] at hs
      simp at hs
    · rw [hc] at hs
      exact pollLoop_steps_wait R a o.pollIntervalMs o.maxWaitMs o.maxAttempts 0 0
        o.pollIntervalMs s hs
  unfold stepWaitEq at hwait
  rw [h429] at hwait
  simp only [if_pos rfl] at hwait
  refine ⟨hwait, ?_⟩
  intro ra hra
  rw [hwait, hra]
  simp

/-- Witness for the amended C4: in the concrete run with a Retry-After of 25s,
the rate-limited iteration waits exactly (hence at least) 25000 ms. -/
theorem C4_rate_limited_wait_witness :
    (25000 : Nat) ≤ BackoffStep.wait ⟨2000, 25000, 429, some 25000⟩ := by
  have h := C4_rate_limited_wait (some "key") (.ok "d") c4Responses none {}
    ⟨2000, 25000, 429, some 25000⟩ (by decide) rfl
  exact h.2 25000 rfl

/-- C4 counterexample: a reachable 429 iteration without Retry-After entering
with adaptive delay 27000 waits 30000 ms — the doubling is capped at 30s, not
at the claimed 45s ceiling (which would give 45000 here). -/
theorem C4_rate_limited_wait_counterexample :
    (transcribeHandwriting (some "key") (.ok "d") c4Responses none {}).steps.get? 1
      = some ⟨27000, 30000, 429, none⟩ ∧
    (30000 : Nat) ≠ min (27000 * 2) 45000 := by
  exact ⟨rfl, by decide⟩

/-- C6 (amended): the adaptive delay is carried forward between iterations
without being reset: the first backoff iteration enters with the base poll
interval, and each following iteration enters with
`min(previous wait + poll interval, 45s if the previous iteration was
rate-limited else 20s)`.  (It is not monotone, and the rate-limited ceiling is
45s, not 30s — see the counterexample.) -/
theorem C6_delay_carried_forward :
    ∀ (key : Option String) (upload : Except String String) (R : Nat → PollResponse)
      (a : Option Nat) (o : OcrOptions),
      List.Chain' (stepLink o.pollIntervalMs) (transcribeHandwriting key upload R a o).steps ∧
      ((transcribeHandwriting key upload R a o).steps.head?.all
        (fun s => s.delayBefore == o.pollIntervalMs)) = true := by
  intro key upload R a o
  rcases transcribe_steps_cases key upload R a o with hc | hc <;> rw [hc]
  · exact ⟨List.chain'_nil, rfl⟩
  · exact ⟨pollLoop_steps_chain R a o.pollIntervalMs o.maxWaitMs o.maxAttempts 0 0
      o.pollIntervalMs,
    pollLoop_steps_headDelay R a o.pollIntervalMs o.maxWaitMs o.maxAttempts 0 0
      o.pollIntervalMs⟩

/-- C6 counterexample: in a concrete run (429 with Retry-After 30s, then two
plain polls), the carried delays are 2000, 32000, 20000 — the delay decreases
from 32000 to 20000 (not monotone), and 32000 exceeds the claimed 30s
rate-limited ceiling (the code's ceiling is 45s). -/
theorem C6_delay_monotone_counterexample :
    ((transcribeHandwriting (some "key") (.ok "d") c6Responses none {}).steps.map
      (fun s => s.delayBefore)) = [2000, 32000, 20000] ∧
    ¬((32000 : Nat) ≤ 20000) ∧ ¬((32000 : Nat) ≤ 30000) := by
  exact ⟨rfl, by decide, by decide⟩

lemma pollLoop_exhausted (R : Nat → PollResponse) (p mw : Nat)
    (hR : ∀ i, (R i).status ≠ some "processed" ∧ (R i).status ≠ some "failed") :
    ∀ (fuel idx elapsed d : Nat),
      (pollLoop R none p mw fuel idx elapsed d).exit = .exhausted := by
  intro fuel
  induction fuel with
  | zero =>
    intro idx e d
    rfl
  | succ n ih =>
    intro idx e d
    simp only [pollLoop]
    split
    · rfl
    · split
      · next hab => simp [abortedAt] at hab
      · split
        · next hp => exact absurd hp (hR idx).1
        · split
          · next hf => exact absurd hf (hR idx).2
          · exact ih (idx + 1) _ _

/-- C3 (amended): when every status poll stays short of "processed"/"failed"
and the run is not cancelled, `transcribeHandwriting` — bounded by its
attempt cap and wall-clock cap — fails with a timeout error whose message
names the vendor document id.  (As stated, the claim is falsified by the one
final post-loop status check, which can still return the transcript after the
bounds are exhausted — see the counterexample.) -/
theorem C3_timeout_names_document :
    ∀ (key docId : String) (R : Nat → PollResponse) (o : OcrOptions),
      key ≠ "" →
      (∀ i, (R i).status ≠ some "processed" ∧ (R i).status ≠ some "failed") →
      (transcribeHandwriting (some key) (.ok docId) R none o).result
        = .error (timeoutMessage docId) ∧
      ∃ pre post, timeoutMessage docId = pre ++ docId ++ post := by
  intro key docId R o hkey hR
  refine ⟨?_, "OCR request timed out before completion (document id: ", "). 请稍后重试。", rfl⟩
  unfold transcribeHandwriting
  rw [if_neg (by simp [abortedAt]), if_neg (by simpa [jsStr] using hkey)]
  have hex := pollLoop_exhausted R o.pollIntervalMs o.maxWaitMs hR o.maxAttempts 0 0
    o.pollIntervalMs
  split
  · next t heq => exact Except.noConfusion heq
  · next m heq =>
    injection heq with hm
    subst hm
    dsimp only
    split
    · next t heq2 => rw [hex] at heq2; cases heq2
    · next m2 heq2 => rw [hex] at heq2; cases heq2
    · rw [if_neg (by simp [abortedAt])]
      have hcond : ¬((R (pollLoop R none o.pollIntervalMs o.maxWaitMs o.maxAttempts 0 0
          o.pollIntervalMs).polls).status = some "processed" ∧
          collectTranscript (R (pollLoop R none o.pollIntervalMs o.maxWaitMs o.maxAttempts 0 0
            o.pollIntervalMs).polls).results ≠ "") := by
        intro hc
        exact absurd hc.1 (hR _).1
      rw [if_neg hcond]

/-- Witness for the amended C3 with an always-"processing" vendor. -/
theorem C3_timeout_names_document_witness :
    (transcribeHandwriting (some "key") (.ok "doc-7") (fun _ => processingResp) none {}).result
      = .error (timeoutMessage "doc-7") := by
  have hnt : processingResp.status ≠ some "processed" ∧ processingResp.status ≠ some "failed" :=
    by decide
  have h := C3_timeout_names_document "key" "doc-7" (fun _ => processingResp) {}
    (by decide) (fun _ => hnt)
  exact h.1

/-- C3 counterexample: under the default 120-attempt / 4-minute bounds, a run
whose 17 in-budget polls never see "processed" (exhausting the wall clock) can
still SUCCEED: the final post-loop check returns the transcript, so the call
does not fail with the timeout error the claim requires. -/
theorem C3_timeout_counterexample :
    (transcribeHandwriting (some "key") (.ok "doc-1") c3Responses none {}).timedOut = true ∧
    (∀ i < 17, (c3Responses i).status ≠ some "processed") ∧
    (transcribeHandwriting (some "key") (.ok "doc-1") c3Responses none {}).result
      = .ok "Hello" ∧
    (transcribeHandwriting (some "key") (.ok "doc-1") c3Responses none {}).result
      ≠ .error (timeoutMessage "doc-1") := by
  refine ⟨rfl, by decide, rfl, by decide⟩

lemma pollLoop_processed (R : Nat → PollResponse) (A : Option Nat) (p mw : Nat) :
    ∀ (fuel idx e d k : Nat),
      (pollLoop R A p mw fuel idx e d).polls = k + 1 →
      (R (idx + k)).status = some "processed" →
      collectTranscript (R (idx + k)).results ≠ "" →
      (pollLoop R A p mw fuel idx e d).exit
        = .success (collectTranscript (R (idx + k)).results) := by
  intro fuel
  induction fuel with
  | zero =>
    intro idx e d k hp
    have hp0 : (0 : Nat) = k + 1 := hp
    exact absurd hp0 (by omega)
  | succ n ih =>
    intro idx e d k hp hst hne
    simp only [pollLoop] at hp ⊢
    by_cases h1 : mw ≤ e
    · rw [if_pos h1] at hp
      have hp0 : (0 : Nat) = k + 1 := hp
      exact absurd hp0 (by omega)
    · rw [if_neg h1] at hp ⊢
      by_cases h2 : abortedAt A idx = true
      · rw [if_pos h2] at hp
        have hp0 : (0 : Nat) = k + 1 := hp
        exact absurd hp0 (by omega)
      · rw [if_neg h2] at hp ⊢
        by_cases h3 : (R idx).status = some "processed"
        · rw [if_pos h3] at hp ⊢
          by_cases h4 : collectTranscript (R idx).results = ""
          · rw [if_pos h4] at hp
            have hp1 : (1 : Nat) = k + 1 := hp
            have hk : k = 0 := by omega
            subst hk
            rw [Nat.add_zero] at hne
            exact absurd h4 hne
          · rw [if_neg h4] at hp ⊢
            have hp1 : (1 : Nat) = k + 1 := hp
            have hk : k = 0 := by omega
            subst hk
            rw [Nat.add_zero]
        · rw [if_neg h3] at hp ⊢
          by_cases h5 : (R idx).status = some "failed"
          · rw [if_pos h5] at hp
            have hp1 : (1 : Nat) = k + 1 := hp
            have hk : k = 0 := by omega
            subst hk
            rw [Nat.add_zero] at hst
            exact absurd hst h3
          · rw [if_neg h5] at hp ⊢
            have hp1 : (pollLoop R A p mw n (idx + 1) (e + computeWait d p (R idx))
                (nextDynamicDelay p (computeWait d p (R idx)) (R idx))).polls + 1 = k + 1 := hp
            cases k with
            | zero =>
              rw [Nat.add_zero] at hst
              exact absurd hst h3
            | succ k' =>
              have hr : (pollLoop R A p mw n (idx + 1) (e + computeWait d p (R idx))
                  (nextDynamicDelay p (computeWait d p (R idx)) (R idx))).polls = k' + 1 := by
                omega
              have heqi : idx + 1 + k' = idx + (k' + 1) := by omega
              have hst' : (R (idx + 1 + k')).status = some "processed" := by
                rw [heqi]; exact hst
              have hne' : collectTranscript (R (idx + 1 + k')).results ≠ "" := by
                rw [heqi]; exact hne
              have hout := ih (idx + 1) (e + computeWait d p (R idx))
                (nextDynamicDelay p (computeWait d p (R idx)) (R idx)) k' hr hst' hne'
              rw [← heqi]
              exact hout

/-- C5 (amended): whenever a status poll inside the polling loop returns
"processed", `transcribeHandwriting` returns the page transcripts joined with
blank-line separators and trimmed, in the order the vendor lists them
(`page_number` is not consulted) with blank pages dropped — provided that
concatenation is nonempty (an empty one raises the empty-transcript error
instead).  In particular pages listed as "Hello", "World" yield
"Hello\n\nWorld". -/
theorem C5_transcript_concatenation :
    ∀ (key : Option String) (upload : Except String String) (R : Nat → PollResponse)
      (a : Option Nat) (o : OcrOptions) (k : Nat),
      (transcribeHandwriting key upload R a o).polls = k + 1 →
      (transcribeHandwriting key upload R a o).timedOut = false →
      (R k).status = some "processed" →
      collectTranscript (R k).results ≠ "" →
      (transcribeHandwriting key upload R a o).result
        = .ok (collectTranscript (R k).results) := by
  intro key upload R a o k hp htO hst hne
  unfold transcribeHandwriting at hp htO ⊢
  by_cases h0 : abortedAt a 0 = true
  · rw [if_pos h0] at hp
    have hp0 : (0 : Nat) = k + 1 := hp
    exact absurd hp0 (by omega)
  · rw [if_neg h0] at hp htO ⊢
    by_cases hkey : jsStr key = ""
    · rw [if_pos hkey] at hp
      have hp0 : (0 : Nat) = k + 1 := hp
      exact absurd hp0 (by omega)
    · rw [if_neg hkey] at hp htO ⊢
      cases upload with
      | error e =>
        have hp0 : (0 : Nat) = k + 1 := hp
        exact absurd hp0 (by omega)
      | ok docId =>
        dsimp only at hp htO ⊢
        have hzero : (0 : Nat) + k = k := Nat.zero_add k
        split at hp
        · next t heq =>
          have hpolls : (pollLoop R a o.pollIntervalMs o.maxWaitMs o.maxAttempts 0 0
              o.pollIntervalMs).polls = k + 1 := hp
          have hout := pollLoop_processed R a o.pollIntervalMs o.maxWaitMs o.maxAttempts 0 0
            o.pollIntervalMs k hpolls (by rw [hzero]; exact hst) (by rw [hzero]; exact hne)
          rw [heq] at hout
          injection hout with ht
          dsimp only
          rw [ht, hzero]
        · next m heq =>
          have hpolls : (pollLoop R a o.pollIntervalMs o.maxWaitMs o.maxAttempts 0 0
              o.pollIntervalMs).polls = k + 1 := hp
          have hout := pollLoop_processed R a o.pollIntervalMs o.maxWaitMs o.maxAttempts 0 0
            o.pollIntervalMs k hpolls (by rw [hzero]; exact hst) (by rw [hzero]; exact hne)
          rw [heq] at hout
          cases hout
        · next heq =>
          rw [heq] at htO
          dsimp only at htO
          by_cases hab : abortedAt a (pollLoop R a o.pollIntervalMs o.maxWaitMs o.maxAttempts
              0 0 o.pollIntervalMs).polls = true
          · rw [if_pos hab] at htO
            exact Bool.noConfusion htO
          · rw [if_neg hab] at htO
            split at htO <;> exact Bool.noConfusion htO

/-- Witness for the amended C5: with the spec's example run — two "processing"
polls, then a processed two-page document "Hello"/"World" — the call returns
"Hello\n\nWorld" and issues exactly 3 status polls. -/
theorem C5_transcript_concatenation_witness :
    (transcribeHandwriting (some "key") (.ok "d") c5Responses none {}).result
      = .ok "Hello\n\nWorld" ∧
    (transcribeHandwriting (some "key") (.ok "d") c5Responses none {}).polls = 3 := by
  have h := C5_transcript_concatenation (some "key") (.ok "d") c5Responses none {} 2
    rfl rfl rfl (by decide)
  exact ⟨h, rfl⟩

/-- C5 counterexample: the claim's "concatenated in page order" is false —
`collectTranscript` joins the transcripts in the order the vendor lists them
and ignores `page_number`, so pages numbered 2,1 listed in that order yield
"World\n\nHello", not the page-ordered "Hello\n\nWorld". -/
theorem C5_page_order_counterexample :
    (transcribeHandwriting (some "key") (.ok "d") (fun _ => outOfOrderResp) none {}).result
      = .ok "World\n\nHello" ∧
    ("World\n\nHello" : String) ≠ "Hello\n\nWorld" := by
  exact ⟨rfl, by decide⟩

